import Mathlib

/-!
Verification development for the `pycheckpoint` library
(`src/pycheckpoint/__init__.py`), a persistent memoization decorator.

The embedding models filenames as lists of characters (`Str`), the cache
root as an association list of directory names to directory listings, and
the wrapper body (`pycheckpoint.decorator.wrapper`) as a pure function
from an initial filesystem state to an outcome.  External library
facilities that the module merely calls are kept abstract:

* `datetime.strftime` / `datetime.strptime` become a pair of parameters
  `fmt : D → Str` and `parse : Str → Option D` on an abstract time type;
* `pickle.dumps` / `hashlib.sha256` become abstract functions; theorems
  about key difference are stated either on the exact data fed to the
  hash, or for an arbitrary injective hash function;
* a serialization strategy becomes a pair `encode : R → B`,
  `decode : B → R` on an abstract file-content type `B`;
* `print` of the notice is not modelled (it does not affect state).

Python `str`'s `\w` character class is modelled by `Char.isAlphanum`
(adequate for the ASCII range the filenames use).
-/

namespace Pycheckpoint

/-- Filenames and path fragments, modelled as lists of characters. -/
abbrev Str := List Char

/-- Coerce a Lean string literal into the `Str` representation. -/
def str (s : String) : Str := s.data

/-- The character set kept by `_pycheckpoint_validify_filename`:
the regex `re.sub(r'[^\w_\-\.\(\)\[\]\x7b\x7d\+=,~]', '', filename)`
keeps word characters plus the listed punctuation.  The two brace
characters are written via their code points. -/
def validifyChar (c : Char) : Bool :=
  c.isAlphanum || c == '_' || c == '-' || c == '.' || c == '(' || c == ')' ||
  c == '[' || c == ']' || c == Char.ofNat 123 || c == Char.ofNat 125 ||
  c == '+' || c == '=' || c == ',' || c == '~'

/-- `_pycheckpoint_validify_filename`: strip every disallowed character. -/
def validifyFilename (s : Str) : Str := s.filter validifyChar

/-- One entry of `dis.Bytecode(func)`: the opcode name, plus the printed
form of the instruction (the `repr` interpolated into the error text). -/
structure Instruction where
  opname : Str
  text : Str
deriving DecidableEq

/-- The opcode-name set `global_mem_instr` of
`_pycheckpoint_validify_function`. -/
def globalMemInstr : List Str :=
  [str "LOAD_GLOBAL", str "STORE_GLOBAL", str "LOAD_NAME", str "STORE_NAME",
   str "LOAD_FROM_DICT_OR_GLOBALS", str "DELETE_GLOBAL", str "DELETE_NAME"]

/-- Does an instruction touch global memory, per the loop body of
`_pycheckpoint_validify_function`? -/
def isGlobalInstr (i : Instruction) : Bool :=
  globalMemInstr.contains i.opname

/-- `_pycheckpoint_validify_function`: reject a function that has free
variables, then scan the instruction stream and reject on the first
global-memory opcode.  Returns the `(valid, reason)` pair of the source. -/
def validifyFunction (freevars : List Str) (instrs : List Instruction) : Bool × Str :=
  if 0 < freevars.length then (false, str "Function has free variables")
  else
    match instrs.find? isGlobalInstr with
    | some i =>
        (false, str "Function may use global memory: " ++ i.opname ++ str ". " ++ i.text)
    | none => (true, [])

/-- A Python code object, restricted to the fields the module reads.
`V` is the type of constant-pool values.  `co_varnames` (local variable
names) is carried to state that the fingerprint does not depend on it;
comments never appear in a code object at all. -/
structure CodeObject (V : Type u) where
  co_consts : List V
  co_names : List Str
  co_code : List Nat
  co_varnames : List Str

/-- The exact data `_pycheckpoint_fingerprint_function` serializes and
hashes: the tuple `(co_consts, co_names, co_code)`. -/
def fingerprintInput (c : CodeObject V) : List V × List Str × List Nat :=
  (c.co_consts, c.co_names, c.co_code)

/-- `_pycheckpoint_fingerprint_function`, with `pickle.dumps` and
`hashlib.sha256(...).hexdigest()` abstracted as `pickleT` and `sha`. -/
def fingerprintFunction (sha : π → Str) (pickleT : List V × List Str × List Nat → π)
    (c : CodeObject V) : Str :=
  sha (pickleT (fingerprintInput c))

/-! ### Argument canonicalization -/

/-- A declared parameter of the wrapped function (positional-or-keyword),
with its optional default value. -/
structure Param (V : Type u) where
  name : Str
  default : Option V

/-- Remove a key from a keyword-argument association list. -/
def removeKey (kw : List (Str × V)) (n : Str) : List (Str × V) :=
  kw.filter (fun q => !(q.1 == n))

/-- `inspect.signature(func).bind(*args, **kwargs).arguments`: bind the
call's arguments to parameter names in declaration order.  Crucially,
`bind` does not apply defaults, so a parameter that is omitted at the
call site is absent from the resulting mapping even when it has a
default.  `none` models the `TypeError`s `bind` raises (too many
positionals, multiple values for one name, missing required argument,
unexpected keyword). -/
def bindArgs : List (Param V) → List V → List (Str × V) → Option (List (Str × V))
  | [], [], [] => some []
  | [], [], _ :: _ => none
  | [], _ :: _, _ => none
  | p :: ps, v :: vs, kw =>
      if (List.lookup p.name kw).isSome then none
      else (bindArgs ps vs kw).map (fun m => (p.name, v) :: m)
  | p :: ps, [], kw =>
      match List.lookup p.name kw with
      | some v => (bindArgs ps [] (removeKey kw p.name)).map (fun m => (p.name, v) :: m)
      | none => if p.default.isSome then bindArgs ps [] kw else none

/-- `",".join(...)` on pre-rendered fragments. -/
def joinComma : List Str → Str
  | [] => []
  | [s] => s
  | s :: rest => s ++ ',' :: joinComma rest

/-- Canonical-mode representation:
`",".join(f"KEY=repr(VALUE)")[:160]` followed by sanitization, where
`reprV` models Python `repr`. -/
def canonicalRepr (reprV : V → Str) (m : List (Str × V)) : Str :=
  validifyFilename ((joinComma (m.map (fun kv => kv.1 ++ '=' :: reprV kv.2))).take 160)

/-- Lexicographic comparison of names by code point, as Python string
comparison orders the keys of `sorted(kwargs.items())`. -/
def strLe : Str → Str → Bool
  | [], _ => true
  | _ :: _, [] => false
  | a :: as, b :: bs => if a = b then strLe as bs else decide (a < b)

/-- The relation underlying `sorted(kwargs.items())`.  With the distinct
keys of a Python `dict`, comparing pairs by key alone agrees with
Python's tuple comparison. -/
def pairLe (p q : Str × V) : Prop := strLe p.1 q.1 = true

/-- `tuple(sorted(kwargs.items()))`. -/
def sortPairs (kw : List (Str × V)) : List (Str × V) :=
  List.insertionSort (fun p q => strLe p.1 q.1 = true) kw

/-- Positional-mode representation:
`",".join(str(arg))[:80] + "_" + ",".join(f"KEY-repr(VALUE)")[:80]`,
sanitized.  Note the keyword pairs are joined in dictionary (insertion)
order, not sorted. -/
def positionalRepr (strV reprV : V → Str) (pos : List V) (kw : List (Str × V)) : Str :=
  let argsRepr := (joinComma (pos.map strV)).take 80
  let kwargsRepr := (joinComma (kw.map (fun kv => kv.1 ++ '-' :: reprV kv.2))).take 80
  validifyFilename (argsRepr ++ '_' :: kwargsRepr)

/-- The exact pair the positional mode pickles and hashes:
`(tuple(args), tuple(sorted(kwargs.items())))`. -/
def positionalHashInput (pos : List V) (kw : List (Str × V)) :
    List V × List (Str × V) :=
  (pos, sortPairs kw)

/-! ### Filename grammar -/

/-- The suffix the lookup loop tests:
`f"_ARGHASH_pycheckpoint.EXT"`. -/
def lookupSuffix (argHash ext : Str) : Str :=
  '_' :: (argHash ++ (str "_pycheckpoint." ++ ext))

/-- `_PYCHECKPOINT_DIRNAME_TEMPLATE`:
`"IDENTIFIER" + "_[" + "DATE" + "]_" + "HASH" + "_pycheckpoint"`
(the appends are grouped, without changing the string, to expose the
prefix and suffix the directory scan tests). -/
def dirName (identifier dateS funcHash : Str) : Str :=
  (identifier ++ ['_']) ++ (('[' :: (dateS ++ [']'])) ++
    ('_' :: (funcHash ++ str "_pycheckpoint")))

/-- `_PYCHECKPOINT_FILENAME_TEMPLATE`:
`"ARGREPR" + "_[" + "DATE" + "]_" + "ARGHASH" + "_pycheckpoint." + "EXT"`
(grouped to expose the lookup suffix). -/
def entryName (argRepr dateS argHash ext : Str) : Str :=
  (argRepr ++ ('_' :: '[' :: (dateS ++ [']']))) ++ lookupSuffix argHash ext

/-- `_PYCHECKPOINT_TMP_FILENAME_TEMPLATE`:
`"ARGREPR" + "_[" + "DATE" + "]_" + "ARGHASH" + "_pycheckpoint.incomplete." + "EXT"`. -/
def tmpEntryName (argRepr dateS argHash ext : Str) : Str :=
  (argRepr ++ ('_' :: '[' :: (dateS ++ [']']))) ++
    ('_' :: (argHash ++ (str "_pycheckpoint.incomplete." ++ ext)))

/-- The audit file `f"IDENTIFIER_source.py"` written on directory
creation. -/
def auditFileName (identifier : Str) : Str := identifier ++ str "_source.py"

/-- The directory-scan test of the wrapper:
`dir.startswith(f"IDENTIFIER_") and dir.endswith(f"_HASH_pycheckpoint")`. -/
def matchesDir (identifier funcHash : Str) (d : Str) : Bool :=
  (identifier ++ ['_']).isPrefixOf d &&
    ('_' :: (funcHash ++ str "_pycheckpoint")).isSuffixOf d

/-- The single test the lookup loop applies to a directory entry:
`file.endswith(suffix)`.  The computed prefix is not tested. -/
def matchesEntry (argHash ext : Str) (f : Str) : Bool :=
  (lookupSuffix argHash ext).isSuffixOf f

/-- Python slicing `l[a:-b]` (with `b > 0`). -/
def pySlice (l : Str) (a b : Nat) : Str := (l.take (l.length - b)).drop a

/-- `file[len(prefix):-(len(suffix))]` with `prefix = f"ARGREPR_"`. -/
def dateSlice (argRepr argHash ext : Str) (f : Str) : Str :=
  pySlice f (argRepr.length + 1) (lookupSuffix argHash ext).length

/-! ### Filesystem model -/

/-- A directory listing: filenames with contents of abstract type `B`. -/
abbrev Listing (B : Type u) := List (Str × B)

/-- The cache root: directory names with their listings.  `none` means
the root does not exist yet. -/
abbrev Root (B : Type u) := Option (List (Str × Listing B))

/-- Remove a file (used by `os.replace` for its source, and to model
`open(path, "wb")` truncating an existing file). -/
def removeFile (fs : Listing B) (n : Str) : Listing B :=
  fs.filter (fun f => !(f.1 == n))

/-- Create or overwrite a file.  New files land at the end of the
listing; `os.listdir` order is modelled as listing order. -/
def fsWrite (fs : Listing B) (n : Str) (b : B) : Listing B :=
  removeFile fs n ++ [(n, b)]

/-- Replace the listing of directory `dn`. -/
def writeDirFiles (dirs : List (Str × Listing B)) (dn : Str) (fs : Listing B) :
    List (Str × Listing B) :=
  dirs.map (fun d => if d.1 == dn then (dn, fs) else d)

/-! ### The wrapper -/

/-- Errors a wrapper call can surface: `ValueError` (failed validation,
malformed stored date), `AssertionError` (missing date brackets), or an
exception `E` raised by the wrapped computation itself. -/
inductive PyErr (E : Type u) where
  | valueError : Str → PyErr E
  | assertionError : Str → PyErr E
  | userError : E → PyErr E

/-- Everything one wrapper call depends on.  `qualname`, `freevars`,
`instrs` describe the wrapped function; `funcHash`, `argRepr`, `argHash`
are the derived key strings (their derivations are modelled by
`fingerprintFunction`, `canonicalRepr`, `positionalRepr`); `body` is the
computation's behaviour on this call's arguments. -/
structure Config (R E B D : Type) where
  qualname : Str
  freevars : List Str
  instrs : List Instruction
  funcHash : Str
  ext : Str
  argRepr : Str
  argHash : Str
  auditContent : B
  encode : R → B
  decode : B → R
  fmt : D → Str
  parse : Str → Option D
  body : Except E R

/-- The observable outcome of one wrapper call: the returned value or
raised error, the final cache root, how many times the wrapped
computation ran, and — when the call published — the root as it stood
after the temporary file was written but before `os.replace` (the state
a crash in that window leaves behind). -/
structure Outcome (R E B : Type) where
  result : Except (PyErr E) R
  root : Option (List (Str × Listing B))
  execCount : Nat
  midRoot : Option (List (Str × Listing B))

/-- The lookup loop's treatment of the entry it matched: slice out the
date, assert the brackets, `strptime` it, then deserialize the payload.
The printed notice is not modelled. -/
def processHit (cfg : Config R E B D) (fn : Str) (b : B) : Except (PyErr E) R :=
  if ((dateSlice cfg.argRepr cfg.argHash cfg.ext fn).head? == some '[') &&
      ((dateSlice cfg.argRepr cfg.argHash cfg.ext fn).getLast? == some ']') then
    match cfg.parse (pySlice (dateSlice cfg.argRepr cfg.argHash cfg.ext fn) 1 1) with
    | some _ => .ok (cfg.decode b)
    | none =>
        .error (.valueError (str "Invalid checkpoint date format: " ++
          pySlice (dateSlice cfg.argRepr cfg.argHash cfg.ext fn) 1 1))
  else
    .error (.assertionError (str "Invalid checkpoint date: " ++
      dateSlice cfg.argRepr cfg.argHash cfg.ext fn))

/-- The first directory entry whose name ends with the lookup suffix. -/
def findEntry (argHash ext : Str) (fs : Listing B) : Option (Str × B) :=
  fs.find? (fun f => matchesEntry argHash ext f.1)

/-- The whole lookup loop over a directory listing: `none` means fall
through to recomputation, `some r` means the loop returned or raised. -/
def processLookup (cfg : Config R E B D) (fs : Listing B) :
    Option (Except (PyErr E) R) :=
  (findEntry cfg.argHash cfg.ext fs).map (fun f => processHit cfg f.1 f.2)

/-- Lookup miss: run the computation; on success write the `.incomplete`
temporary file, then `os.replace` it onto the final name. -/
def runInDir (cfg : Config R E B D) (dateS : Str)
    (dirs : List (Str × Listing B)) (dn : Str) (fs : Listing B) : Outcome R E B :=
  match processLookup cfg fs with
  | some res => ⟨res, some dirs, 0, none⟩
  | none =>
      match cfg.body with
      | .error e => ⟨.error (.userError e), some dirs, 1, none⟩
      | .ok r =>
          let tn := tmpEntryName cfg.argRepr dateS cfg.argHash cfg.ext
          let fn := entryName cfg.argRepr dateS cfg.argHash cfg.ext
          let fs1 := fsWrite fs tn (cfg.encode r)
          let fs2 := fsWrite (removeFile fs1 tn) fn (cfg.encode r)
          ⟨.ok r, some (writeDirFiles dirs dn fs2), 1, some (writeDirFiles dirs dn fs1)⟩

/-- One call of the wrapper produced by the decorator, from validation
through lookup to atomic publish, acting on a cache root `root0`. -/
def runWrapper (cfg : Config R E B D) (now : D) (root0 : Root B) : Outcome R E B :=
  let identifier := validifyFilename cfg.qualname
  let vres := validifyFunction cfg.freevars cfg.instrs
  if vres.1 then
    let dateS := cfg.fmt now
    let dirs0 := (root0.getD [])
    match dirs0.find? (fun d => matchesDir identifier cfg.funcHash d.1) with
    | some d => runInDir cfg dateS dirs0 d.1 d.2
    | none =>
        let dn := dirName identifier dateS cfg.funcHash
        let fs := [(auditFileName identifier, cfg.auditContent)]
        runInDir cfg dateS (dirs0 ++ [(dn, fs)]) dn fs
  else
    ⟨.error (.valueError (str "Function cannot be checkpointed: " ++ vres.2)), root0, 0, none⟩

/-- Count of valid (lookup-matching) entries for a key in a listing. -/
def validEntryCount (argHash ext : Str) (fs : Listing B) : Nat :=
  fs.countP (fun f => matchesEntry argHash ext f.1)

/-- A concrete configuration family used for evaluating the model at
specific inputs: an argument-free function `f` hashed to `"F"`, pickle
strategy, argument key `("a", "h")`. -/
def mkTestCfg (freevars : List Str) (instrs : List Instruction) (body : Except Unit Nat) :
    Config Nat Unit Nat Unit :=
  ⟨str "f", freevars, instrs, str "F", str "pkl", str "a", str "h", 0,
   fun r => r, fun b => b, fun _ => str "d", fun _ => some (), body⟩

/-- A concrete configuration whose date type is `Nat` and whose parser
accepts anything, for exercising the lookup loop. -/
def cexCfg : Config Nat Unit Nat Nat :=
  ⟨str "f", [], [], str "F", str "pkl", str "a", str "h", 0,
   fun r => r, fun b => b, fun _ => str "x", fun _ => some 0, .ok 99⟩

/-- A well-behaved concrete configuration (clean function, body returns 5). -/
def witCfg1 : Config Nat Unit Nat Unit := mkTestCfg [] [] (.ok 5)

/-- A concrete configuration whose body raises. -/
def witCfgErr : Config Nat Unit Nat Unit := mkTestCfg [] [] (.error ())

/-- A concrete configuration for a function with a free variable. -/
def witCfgFv : Config Nat Unit Nat Unit := mkTestCfg [str "x"] [] (.ok 5)

/-- A concrete configuration for a function whose bytecode loads a
global. -/
def witCfgGl : Config Nat Unit Nat Unit :=
  mkTestCfg [] [⟨str "LOAD_GLOBAL", str "instrtext"⟩] (.ok 5)

/-! ### Helper lemmas: booleans and list infrastructure -/

theorem isPrefIff {l1 l2 : Str} : l1.isPrefixOf l2 = true ↔ l1 <+: l2 :=
  List.isPrefixOf_iff_prefix

theorem isSufIff {l1 l2 : Str} : l1.isSuffixOf l2 = true ↔ l1 <:+ l2 :=
  List.isSuffixOf_iff_suffix

theorem revPrefIffSuffix {l1 l2 : Str} : l1.reverse <+: l2.reverse ↔ l1 <:+ l2 :=
  List.reverse_prefix

@[simp] theorem length_str_pycheckpoint_dot : (str "_pycheckpoint.").length = 14 := rfl

@[simp] theorem length_str_pycheckpoint : (str "_pycheckpoint").length = 13 := rfl

@[simp] theorem length_str_incomplete : (str "_pycheckpoint.incomplete.").length = 25 := rfl

@[simp] theorem length_str_source : (str "_source.py").length = 10 := rfl

/-- Positions counted from the end agree between a list and any of its
suffixes. -/
theorem suffix_revGet {t s : Str} (h : t <:+ s) {k : Nat} (hk : k < t.length) :
    s.reverse[k]? = t.reverse[k]? := by
  obtain ⟨p, rfl⟩ := h
  rw [List.reverse_append]
  exact List.getElem?_append_left (by simpa using hk)

/-- Reading a string of shape `A ++ (m ++ e)` at distance `e.length + k`
from the end lands inside `m`. -/
theorem revGet_append (A m e : Str) (k : Nat) (hk : k < m.length) :
    (A ++ (m ++ e)).reverse[e.length + k]? = m.reverse[k]? := by
  rw [List.reverse_append, List.reverse_append,
    List.getElem?_append_left (by simp; omega),
    List.getElem?_append_right (by simp)]
  simp

/-- Core mismatch argument: a string of shape `A ++ (m ++ ext)` whose
middle marker `m` has no underscore among its last ten characters, and
whose `ext` does not end in `"_source.py"`, cannot agree with
`auditFileName i` on the last ten characters. -/
theorem audit_tail_mismatch (A m ext i : Str)
    (hmlen : 10 ≤ m.length)
    (hm : ∀ j, j < 10 → m.reverse[j]? ≠ some '_')
    (hext : ¬ (str "_source.py") <:+ ext)
    (hagree : ∀ k, k < 10 → (A ++ (m ++ ext)).reverse[k]? = (auditFileName i).reverse[k]?) :
    False := by
  have haudit : ∀ k, k < 10 → (auditFileName i).reverse[k]? = (str "_source.py").reverse[k]? := by
    intro k hk
    unfold auditFileName
    rw [List.reverse_append]
    exact List.getElem?_append_left (by simpa using hk)
  have hS : ∀ k, k < 10 → (A ++ (m ++ ext)).reverse[k]? = (ext.reverse ++ m.reverse)[k]? := by
    intro k hk
    rw [List.reverse_append, List.reverse_append]
    exact List.getElem?_append_left (by simp; omega)
  by_cases hle : 10 ≤ ext.length
  · apply hext
    rw [← revPrefIffSuffix, List.prefix_iff_eq_take]
    apply List.ext_getElem?
    intro n
    by_cases hn : n < 10
    · have ha : ((str "_source.py").reverse)[n]? = ext.reverse[n]? := by
        rw [← haudit n hn, ← hagree n hn, hS n hn,
          List.getElem?_append_left (by simp; omega)]
      have hb : (List.take (str "_source.py").reverse.length ext.reverse)[n]? =
          ext.reverse[n]? := by
        rw [List.getElem?_take]
        simp only [List.length_reverse, length_str_source]
        simp [hn]
      rw [ha, hb]
    · have h2 : ((str "_source.py").reverse)[n]? = none :=
        List.getElem?_eq_none (by simp; omega)
      have h3 : (List.take (str "_source.py").reverse.length ext.reverse)[n]? = none :=
        List.getElem?_eq_none (by simp; omega)
      rw [h2, h3]
  · have hidx : 9 - ext.length < 10 := by omega
    apply hm (9 - ext.length) hidx
    have hs : (A ++ (m ++ ext)).reverse[9]? = m.reverse[9 - ext.length]? := by
      rw [hS 9 (by omega), List.getElem?_append_right (by simp; omega)]
      simp
    rw [← hs, hagree 9 (by omega), haudit 9 (by omega)]
    decide

/-! ### Helper lemmas: the filename grammar -/

@[simp] theorem length_lookupSuffix (ah ext : Str) :
    (lookupSuffix ah ext).length = ah.length + ext.length + 15 := by
  simp [lookupSuffix]
  omega

theorem lookupSuffix_shape (ah ext : Str) :
    lookupSuffix ah ext = ('_' :: ah) ++ (str "_pycheckpoint." ++ ext) := rfl

theorem tmpEntryName_shape (ar ds ah ext : Str) :
    tmpEntryName ar ds ah ext =
      ((ar ++ ('_' :: '[' :: (ds ++ [']']))) ++ ('_' :: ah)) ++
        (str "_pycheckpoint.incomplete." ++ ext) := by
  exact (List.append_assoc (ar ++ ('_' :: '[' :: (ds ++ [']']))) ('_' :: ah)
    (str "_pycheckpoint.incomplete." ++ ext)).symm

/-- The `.incomplete` temporary name never passes the lookup loop's
suffix test: fourteen characters before its extension it reads
`...incomplete.EXT` where a matching name must read `...pycheckpoint.EXT`. -/
theorem tmp_never_matches (ar ds ah ext : Str) :
    matchesEntry ah ext (tmpEntryName ar ds ah ext) = false := by
  rw [← Bool.not_eq_true]
  intro hmatch
  have hsuf : lookupSuffix ah ext <:+ tmpEntryName ar ds ah ext :=
    isSufIff.mp hmatch
  have hk : ext.length + 1 < (lookupSuffix ah ext).length := by
    simp
    omega
  have hag := suffix_revGet hsuf hk
  rw [tmpEntryName_shape] at hag
  rw [revGet_append _ _ _ 1 (by simp)] at hag
  rw [lookupSuffix_shape] at hag
  rw [revGet_append _ _ _ 1 (by simp)] at hag
  revert hag
  decide

/-- The audit file's name never passes the lookup loop's suffix test,
provided the serialization extension does not itself end in
`"_source.py"`. -/
theorem lookupSuffix_not_suffix_audit (ah ext i : Str)
    (hext : ¬ (str "_source.py") <:+ ext) :
    ¬ lookupSuffix ah ext <:+ auditFileName i := by
  intro h
  apply audit_tail_mismatch ('_' :: ah) (str "_pycheckpoint.") ext i (by simp)
    (by decide) hext
  intro k hk
  have hlt : k < (lookupSuffix ah ext).length := by
    simp
    omega
  exact (suffix_revGet h hlt).symm

theorem audit_not_matchesEntry (ah ext i : Str)
    (hext : ¬ (str "_source.py") <:+ ext) :
    matchesEntry ah ext (auditFileName i) = false := by
  rw [← Bool.not_eq_true]
  intro h
  exact lookupSuffix_not_suffix_audit ah ext i hext (isSufIff.mp h)

theorem audit_ne_entryName (ar ds ah ext i : Str)
    (hext : ¬ (str "_source.py") <:+ ext) :
    auditFileName i ≠ entryName ar ds ah ext := by
  intro h
  apply lookupSuffix_not_suffix_audit ah ext i hext
  rw [h]
  exact List.suffix_append _ _

theorem audit_ne_tmpEntryName (ar ds ah ext i : Str)
    (hext : ¬ (str "_source.py") <:+ ext) :
    auditFileName i ≠ tmpEntryName ar ds ah ext := by
  intro h
  apply audit_tail_mismatch ((ar ++ ('_' :: '[' :: (ds ++ [']']))) ++ ('_' :: ah))
    (str "_pycheckpoint.incomplete.") ext i (by simp) (by decide) hext
  intro k hk
  rw [← tmpEntryName_shape, ← h]

/-- The freshly created directory's name matches the scan the wrapper
performs on later calls. -/
theorem matchesDir_dirName (identifier funcHash ds : Str) :
    matchesDir identifier funcHash (dirName identifier ds funcHash) = true := by
  unfold matchesDir dirName
  rw [Bool.and_eq_true, isPrefIff, isSufIff]
  exact ⟨List.prefix_append _ _, (List.suffix_append _ _).trans (List.suffix_append _ _)⟩

/-- A published entry's name matches the lookup suffix test. -/
theorem entryName_matches (ar ds ah ext : Str) :
    matchesEntry ah ext (entryName ar ds ah ext) = true := by
  unfold matchesEntry entryName
  exact isSufIff.mpr (List.suffix_append _ _)

/-- Slicing a well-formed entry name between the computed prefix and
suffix lengths recovers exactly the bracketed date. -/
theorem dateSlice_entryName (ar ds ah ext : Str) :
    dateSlice ar ah ext (entryName ar ds ah ext) = '[' :: (ds ++ [']']) := by
  unfold dateSlice entryName pySlice
  have hlen : ((ar ++ ('_' :: '[' :: (ds ++ [']']))) ++ lookupSuffix ah ext).length -
      (lookupSuffix ah ext).length = (ar ++ ('_' :: '[' :: (ds ++ [']']))).length := by
    simp
    omega
  rw [hlen, List.take_left, List.append_cons]
  have h2 : (ar ++ ['_']).length = ar.length + 1 := by simp
  rw [← h2, List.drop_left]

theorem head_bracket (ds : Str) : ('[' :: (ds ++ [']'])).head? = some '[' := rfl

theorem getLast_bracket (ds : Str) : ('[' :: (ds ++ [']'])).getLast? = some ']' := by
  have h2 : ('[' :: (ds ++ [']'])) = ('[' :: ds) ++ [']'] := rfl
  rw [h2, List.getLast?_concat]

theorem pySlice_bracket (ds : Str) : pySlice ('[' :: (ds ++ [']'])) 1 1 = ds := by
  unfold pySlice
  have h1 : ('[' :: (ds ++ [']'])).length - 1 = ds.length + 1 := by simp
  have h2 : ('[' :: (ds ++ [']'])) = ('[' :: ds) ++ [']'] := rfl
  have h3 : ('[' :: ds).length = ds.length + 1 := by simp
  rw [h1, h2, ← h3, List.take_left]
  rfl

/-! ### Helper lemmas: filesystem model -/

theorem removeFile_fsWrite (fs : Listing B) (n : Str) (b : B) :
    removeFile (fsWrite fs n b) n = removeFile fs n := by
  simp [fsWrite, removeFile, List.filter_append, List.filter_filter]

theorem validEntryCount_removeFile_zero (ah ext n : Str) (fs : Listing B)
    (h : validEntryCount ah ext fs = 0) :
    validEntryCount ah ext (removeFile fs n) = 0 := by
  unfold validEntryCount at h ⊢
  unfold removeFile
  rw [List.countP_eq_zero] at h ⊢
  intro a ha
  exact h a (List.mem_filter.mp ha).1

/-- Publishing through the temporary-then-rename steps adds exactly one
matching entry to a listing that had none. -/
theorem validEntryCount_publish (ah ext : Str) (fs : Listing B) (tn fn : Str) (b c : B)
    (h : validEntryCount ah ext fs = 0) (hfn : matchesEntry ah ext fn = true) :
    validEntryCount ah ext (fsWrite (removeFile (fsWrite fs tn b) tn) fn c) = 1 := by
  rw [removeFile_fsWrite]
  unfold fsWrite
  unfold validEntryCount at h ⊢
  rw [List.countP_append]
  have h1 : (removeFile (removeFile fs tn) fn).countP
      (fun f => matchesEntry ah ext f.1) = 0 :=
    validEntryCount_removeFile_zero ah ext fn _ (validEntryCount_removeFile_zero ah ext tn fs h)
  rw [h1]
  simp [hfn]

theorem mem_publish (fs : Listing B) (tn fn : Str) (b c : B) :
    (fn, c) ∈ fsWrite (removeFile (fsWrite fs tn b) tn) fn c := by
  rw [removeFile_fsWrite]
  unfold fsWrite
  exact List.mem_append_right _ (List.mem_singleton.mpr rfl)

/-! ### Helper lemmas: validation -/

theorem validifyFunction_ok (freevars : List Str) (instrs : List Instruction)
    (hfv : freevars = []) (hgi : ∀ i ∈ instrs, isGlobalInstr i = false) :
    validifyFunction freevars instrs = (true, []) := by
  subst hfv
  have hnone : instrs.find? isGlobalInstr = none :=
    List.find?_eq_none.mpr (fun x hx => by rw [hgi x hx]; exact Bool.false_ne_true)
  simp [validifyFunction, hnone]

theorem validifyFunction_freevars (freevars : List Str) (instrs : List Instruction)
    (h : freevars ≠ []) :
    validifyFunction freevars instrs = (false, str "Function has free variables") := by
  unfold validifyFunction
  rw [if_pos (List.length_pos.mpr h)]

theorem validifyFunction_global (freevars : List Str) (instrs : List Instruction)
    (i : Instruction) (hfv : freevars = [])
    (hfind : instrs.find? isGlobalInstr = some i) :
    validifyFunction freevars instrs =
      (false, str "Function may use global memory: " ++ i.opname ++ str ". " ++ i.text) := by
  subst hfv
  simp [validifyFunction, hfind]

/-! ### Helper lemmas: evaluating the wrapper -/

theorem runWrapper_invalid (cfg : Config R E B D) (now : D) (root0 : Root B)
    (h : (validifyFunction cfg.freevars cfg.instrs).1 = false) :
    runWrapper cfg now root0 =
      ⟨.error (.valueError (str "Function cannot be checkpointed: " ++
        (validifyFunction cfg.freevars cfg.instrs).2)), root0, 0, none⟩ := by
  simp [runWrapper, h]

theorem runWrapper_found (cfg : Config R E B D) (now : D)
    (dirs0 : List (Str × Listing B)) (d : Str × Listing B)
    (hv : (validifyFunction cfg.freevars cfg.instrs).1 = true)
    (hfind : dirs0.find?
      (fun d => matchesDir (validifyFilename cfg.qualname) cfg.funcHash d.1) = some d) :
    runWrapper cfg now (some dirs0) = runInDir cfg (cfg.fmt now) dirs0 d.1 d.2 := by
  simp [runWrapper, hv, hfind]

theorem runWrapper_notfound (cfg : Config R E B D) (now : D)
    (dirs0 : List (Str × Listing B))
    (hv : (validifyFunction cfg.freevars cfg.instrs).1 = true)
    (hfind : dirs0.find?
      (fun d => matchesDir (validifyFilename cfg.qualname) cfg.funcHash d.1) = none) :
    runWrapper cfg now (some dirs0) =
      runInDir cfg (cfg.fmt now)
        (dirs0 ++ [(dirName (validifyFilename cfg.qualname) (cfg.fmt now) cfg.funcHash,
          [(auditFileName (validifyFilename cfg.qualname), cfg.auditContent)])])
        (dirName (validifyFilename cfg.qualname) (cfg.fmt now) cfg.funcHash)
        [(auditFileName (validifyFilename cfg.qualname), cfg.auditContent)] := by
  simp [runWrapper, hv, hfind]

theorem runWrapper_none_eq (cfg : Config R E B D) (now : D)
    (hv : (validifyFunction cfg.freevars cfg.instrs).1 = true) :
    runWrapper cfg now none =
      runInDir cfg (cfg.fmt now)
        [(dirName (validifyFilename cfg.qualname) (cfg.fmt now) cfg.funcHash,
          [(auditFileName (validifyFilename cfg.qualname), cfg.auditContent)])]
        (dirName (validifyFilename cfg.qualname) (cfg.fmt now) cfg.funcHash)
        [(auditFileName (validifyFilename cfg.qualname), cfg.auditContent)] := by
  simp [runWrapper, hv]

theorem processLookup_nil (cfg : Config R E B D) : processLookup cfg ([] : Listing B) = none :=
  rfl

theorem processLookup_cons_neg (cfg : Config R E B D) (f : Str × B) (fs : Listing B)
    (h : matchesEntry cfg.argHash cfg.ext f.1 = false) :
    processLookup cfg (f :: fs) = processLookup cfg fs := by
  unfold processLookup findEntry
  rw [List.find?_cons_of_neg _ (by simp [h])]

theorem processLookup_cons_pos (cfg : Config R E B D) (f : Str × B) (fs : Listing B)
    (h : matchesEntry cfg.argHash cfg.ext f.1 = true) :
    processLookup cfg (f :: fs) = some (processHit cfg f.1 f.2) := by
  unfold processLookup findEntry
  rw [@List.find?_cons_of_pos _ (fun g => matchesEntry cfg.argHash cfg.ext g.1) f fs h]
  rfl

theorem runInDir_hit (cfg : Config R E B D) (dateS : Str)
    (dirs : List (Str × Listing B)) (dn : Str) (fs : Listing B)
    (res : Except (PyErr E) R) (h : processLookup cfg fs = some res) :
    runInDir cfg dateS dirs dn fs = ⟨res, some dirs, 0, none⟩ := by
  simp [runInDir, h]

theorem runInDir_miss_raise (cfg : Config R E B D) (dateS : Str)
    (dirs : List (Str × Listing B)) (dn : Str) (fs : Listing B) (e : E)
    (h : processLookup cfg fs = none) (he : cfg.body = .error e) :
    runInDir cfg dateS dirs dn fs = ⟨.error (.userError e), some dirs, 1, none⟩ := by
  simp [runInDir, h, he]

theorem runInDir_miss_ok (cfg : Config R E B D) (dateS : Str)
    (dirs : List (Str × Listing B)) (dn : Str) (fs : Listing B) (r : R)
    (h : processLookup cfg fs = none) (hr : cfg.body = .ok r) :
    runInDir cfg dateS dirs dn fs =
      ⟨.ok r,
       some (writeDirFiles dirs dn
         (fsWrite (removeFile (fsWrite fs (tmpEntryName cfg.argRepr dateS cfg.argHash cfg.ext)
             (cfg.encode r)) (tmpEntryName cfg.argRepr dateS cfg.argHash cfg.ext))
           (entryName cfg.argRepr dateS cfg.argHash cfg.ext) (cfg.encode r))),
       1,
       some (writeDirFiles dirs dn
         (fsWrite fs (tmpEntryName cfg.argRepr dateS cfg.argHash cfg.ext) (cfg.encode r)))⟩ := by
  simp [runInDir, h, hr]

theorem processHit_entryName (cfg : Config R E B D) (ds : Str) (b : B) (d0 : D)
    (hparse : cfg.parse ds = some d0) :
    processHit cfg (entryName cfg.argRepr ds cfg.argHash cfg.ext) b = .ok (cfg.decode b) := by
  unfold processHit
  rw [dateSlice_entryName, head_bracket, getLast_bracket]
  simp only [beq_self_eq_true, Bool.and_self, if_true]
  rw [pySlice_bracket, hparse]

theorem writeDirFiles_singleton (dn : Str) (fs fs' : Listing B) :
    writeDirFiles [(dn, fs)] dn fs' = [(dn, fs')] := by
  simp [writeDirFiles]

/-- A first call on a fresh cache root: the root, the directory and its
audit file are created, the computation runs once, and one entry is
published; in the crash window only the audit file and the `.incomplete`
temporary exist. -/
theorem runWrapper_fresh (cfg : Config R E B D) (now : D) (r : R)
    (hfv : cfg.freevars = []) (hgi : ∀ i ∈ cfg.instrs, isGlobalInstr i = false)
    (hext : ¬ (str "_source.py") <:+ cfg.ext) (hbody : cfg.body = .ok r) :
    runWrapper cfg now none =
      ⟨.ok r,
       some [(dirName (validifyFilename cfg.qualname) (cfg.fmt now) cfg.funcHash,
         [(auditFileName (validifyFilename cfg.qualname), cfg.auditContent),
          (entryName cfg.argRepr (cfg.fmt now) cfg.argHash cfg.ext, cfg.encode r)])],
       1,
       some [(dirName (validifyFilename cfg.qualname) (cfg.fmt now) cfg.funcHash,
         [(auditFileName (validifyFilename cfg.qualname), cfg.auditContent),
          (tmpEntryName cfg.argRepr (cfg.fmt now) cfg.argHash cfg.ext, cfg.encode r)])]⟩ := by
  have hv : (validifyFunction cfg.freevars cfg.instrs).1 = true := by
    rw [validifyFunction_ok _ _ hfv hgi]
  rw [runWrapper_none_eq cfg now hv]
  have hmiss : processLookup cfg
      [(auditFileName (validifyFilename cfg.qualname), cfg.auditContent)] = none := by
    rw [processLookup_cons_neg _ _ _ (audit_not_matchesEntry _ _ _ hext)]
    rfl
  rw [runInDir_miss_ok _ _ _ _ _ r hmiss hbody]
  have hat : ((auditFileName (validifyFilename cfg.qualname) : Str) ==
      tmpEntryName cfg.argRepr (cfg.fmt now) cfg.argHash cfg.ext) = false := by
    rw [beq_eq_false_iff_ne]
    exact audit_ne_tmpEntryName _ _ _ _ _ hext
  have hae : ((auditFileName (validifyFilename cfg.qualname) : Str) ==
      entryName cfg.argRepr (cfg.fmt now) cfg.argHash cfg.ext) = false := by
    rw [beq_eq_false_iff_ne]
    exact audit_ne_entryName _ _ _ _ _ hext
  rw [writeDirFiles_singleton, writeDirFiles_singleton]
  simp [fsWrite, removeFile, hat, hae]

/-- A later call that finds the directory and a published entry for its
key returns the deserialized payload without executing the computation. -/
theorem runWrapper_hit (cfg : Config R E B D) (now : D) (dn ds : Str) (d0 : D)
    (ac b : B)
    (hv : (validifyFunction cfg.freevars cfg.instrs).1 = true)
    (hdir : matchesDir (validifyFilename cfg.qualname) cfg.funcHash dn = true)
    (hext : ¬ (str "_source.py") <:+ cfg.ext)
    (hparse : cfg.parse ds = some d0) :
    runWrapper cfg now (some [(dn,
        [(auditFileName (validifyFilename cfg.qualname), ac),
         (entryName cfg.argRepr ds cfg.argHash cfg.ext, b)])]) =
      ⟨.ok (cfg.decode b),
       some [(dn, [(auditFileName (validifyFilename cfg.qualname), ac),
         (entryName cfg.argRepr ds cfg.argHash cfg.ext, b)])], 0, none⟩ := by
  rw [runWrapper_found cfg now _ ((dn,
      [(auditFileName (validifyFilename cfg.qualname), ac),
       (entryName cfg.argRepr ds cfg.argHash cfg.ext, b)])) hv
    (@List.find?_cons_of_pos (Str × Listing B)
      (fun d => matchesDir (validifyFilename cfg.qualname) cfg.funcHash d.1) _ [] hdir)]
  have hlk : processLookup cfg
      [(auditFileName (validifyFilename cfg.qualname), ac),
       (entryName cfg.argRepr ds cfg.argHash cfg.ext, b)] =
      some (.ok (cfg.decode b)) := by
    rw [processLookup_cons_neg _ _ _ (audit_not_matchesEntry _ _ _ hext),
      processLookup_cons_pos _ _ _ (entryName_matches _ _ _ _),
      processHit_entryName _ _ _ _ hparse]
  exact runInDir_hit _ _ _ _ _ _ hlk

/-- A call that misses lookup in an existing directory recomputes and
publishes an entry named with its own call date. -/
theorem runWrapper_miss_publish (cfg : Config R E B D) (now : D) (dn : Str)
    (fs : Listing B) (r : R)
    (hv : (validifyFunction cfg.freevars cfg.instrs).1 = true)
    (hdir : matchesDir (validifyFilename cfg.qualname) cfg.funcHash dn = true)
    (hmiss : processLookup cfg fs = none) (hbody : cfg.body = .ok r) :
    runWrapper cfg now (some [(dn, fs)]) =
      ⟨.ok r,
       some [(dn, fsWrite (removeFile
           (fsWrite fs (tmpEntryName cfg.argRepr (cfg.fmt now) cfg.argHash cfg.ext)
             (cfg.encode r))
           (tmpEntryName cfg.argRepr (cfg.fmt now) cfg.argHash cfg.ext))
         (entryName cfg.argRepr (cfg.fmt now) cfg.argHash cfg.ext) (cfg.encode r))],
       1,
       some [(dn, fsWrite fs (tmpEntryName cfg.argRepr (cfg.fmt now) cfg.argHash cfg.ext)
         (cfg.encode r))]⟩ := by
  rw [runWrapper_found cfg now _ (dn, fs) hv
    (@List.find?_cons_of_pos (Str × Listing B)
      (fun d => matchesDir (validifyFilename cfg.qualname) cfg.funcHash d.1) _ [] hdir)]
  rw [runInDir_miss_ok _ _ _ _ _ r hmiss hbody]
  rw [writeDirFiles_singleton, writeDirFiles_singleton]

/-! ### Helper lemmas: the keyword-sorting order -/

theorem strLe_total : ∀ a b : Str, strLe a b = true ∨ strLe b a = true := by
  intro a
  induction a with
  | nil => intro b; exact Or.inl rfl
  | cons x xs ih =>
    intro b
    cases b with
    | nil => exact Or.inr rfl
    | cons y ys =>
      by_cases hxy : x = y
      · subst hxy
        unfold strLe
        simp only [if_pos rfl]
        exact ih ys
      · unfold strLe
        rw [if_neg hxy, if_neg (Ne.symm hxy)]
        rcases lt_trichotomy x y with h | h | h
        · exact Or.inl (decide_eq_true h)
        · exact absurd h hxy
        · exact Or.inr (decide_eq_true h)

theorem strLe_trans : ∀ a b c : Str, strLe a b = true → strLe b c = true →
    strLe a c = true := by
  intro a
  induction a with
  | nil => intro b c _ _; rfl
  | cons x xs ih =>
    intro b c hab hbc
    cases b with
    | nil => exact absurd hab (by simp [strLe])
    | cons y ys =>
      cases c with
      | nil => exact absurd hbc (by simp [strLe])
      | cons z zs =>
        unfold strLe at hab hbc ⊢
        by_cases hxy : x = y
        · subst hxy
          rw [if_pos rfl] at hab
          by_cases hyz : x = z
          · subst hyz
            rw [if_pos rfl] at hbc ⊢
            exact ih ys zs hab hbc
          · rw [if_neg hyz] at hbc ⊢
            exact hbc
        · rw [if_neg hxy] at hab
          have hlt1 : x < y := of_decide_eq_true hab
          by_cases hyz : y = z
          · subst hyz
            rw [if_neg hxy]
            exact hab
          · rw [if_neg hyz] at hbc
            have hlt2 : y < z := of_decide_eq_true hbc
            have hxz : x < z := lt_trans hlt1 hlt2
            rw [if_neg (ne_of_lt hxz)]
            exact decide_eq_true hxz

theorem strLe_antisymm : ∀ a b : Str, strLe a b = true → strLe b a = true → a = b := by
  intro a
  induction a with
  | nil =>
    intro b _ hba
    cases b with
    | nil => rfl
    | cons y ys => exact absurd hba (by simp [strLe])
  | cons x xs ih =>
    intro b hab hba
    cases b with
    | nil => exact absurd hab (by simp [strLe])
    | cons y ys =>
      unfold strLe at hab hba
      by_cases hxy : x = y
      · subst hxy
        rw [if_pos rfl] at hab hba
        rw [ih ys hab hba]
      · rw [if_neg hxy] at hab
        rw [if_neg (Ne.symm hxy)] at hba
        exact absurd (lt_trans (of_decide_eq_true hab) (of_decide_eq_true hba))
          (lt_irrefl x)

instance instPairKeyTotal (V : Type u) :
    IsTotal (Str × V) (fun p q => strLe p.1 q.1 = true) :=
  ⟨fun a b => strLe_total a.1 b.1⟩

instance instPairKeyTrans (V : Type u) :
    IsTrans (Str × V) (fun p q => strLe p.1 q.1 = true) :=
  ⟨fun a b c => strLe_trans a.1 b.1 c.1⟩

theorem sortPairs_perm (kw : List (Str × V)) : List.Perm (sortPairs kw) kw :=
  List.perm_insertionSort _ _

theorem sortPairs_sorted (kw : List (Str × V)) :
    List.Sorted (fun p q : Str × V => strLe p.1 q.1 = true) (sortPairs kw) :=
  List.sorted_insertionSort _ _

/-- Two key-sorted association lists that are permutations of each other
and have distinct keys are equal. -/
theorem eq_of_perm_sorted_nodupKeys :
    ∀ l1 l2 : List (Str × V), List.Perm l1 l2 → (l1.map Prod.fst).Nodup →
      List.Sorted (fun p q : Str × V => strLe p.1 q.1 = true) l1 →
      List.Sorted (fun p q : Str × V => strLe p.1 q.1 = true) l2 → l1 = l2 := by
  intro l1
  induction l1 with
  | nil =>
    intro l2 hp _ _ _
    exact (List.Perm.eq_nil hp.symm).symm
  | cons p t ih =>
    intro l2 hp hnd hs1 hs2
    cases l2 with
    | nil => exact absurd hp (by simp)
    | cons q t2 =>
      by_cases hpq : p = q
      · subst hpq
        have hndt : (t.map Prod.fst).Nodup := by
          rw [List.map_cons] at hnd
          exact (List.nodup_cons.mp hnd).2
        rw [ih t2 hp.cons_inv hndt hs1.of_cons hs2.of_cons]
      · exfalso
        have hqmem : q ∈ p :: t := hp.symm.subset (List.mem_cons_self q t2)
        have hpmem : p ∈ q :: t2 := hp.subset (List.mem_cons_self p t)
        have hqt : q ∈ t := by
          rcases List.mem_cons.mp hqmem with h | h
          · exact absurd h.symm hpq
          · exact h
        have hpt2 : p ∈ t2 := by
          rcases List.mem_cons.mp hpmem with h | h
          · exact absurd h hpq
          · exact h
        have h1 : strLe p.1 q.1 = true := List.rel_of_sorted_cons hs1 q hqt
        have h2 : strLe q.1 p.1 = true := List.rel_of_sorted_cons hs2 p hpt2
        have hkey : p.1 = q.1 := strLe_antisymm p.1 q.1 h1 h2
        have : p.1 ∈ t.map Prod.fst := by
          rw [hkey]
          exact List.mem_map_of_mem Prod.fst hqt
        rw [List.map_cons] at hnd
        exact (List.nodup_cons.mp hnd).1 this

/-- Sorting the keyword pairs erases the call-site ordering: any
permutation with distinct keys sorts to the same list. -/
theorem sortPairs_perm_invariant (kw1 kw2 : List (Str × V)) (hperm : List.Perm kw1 kw2)
    (hnd : (kw1.map Prod.fst).Nodup) : sortPairs kw1 = sortPairs kw2 := by
  apply eq_of_perm_sorted_nodupKeys
  · exact (sortPairs_perm kw1).trans (hperm.trans (sortPairs_perm kw2).symm)
  · exact (((sortPairs_perm kw1).map Prod.fst).symm).nodup hnd
  · exact sortPairs_sorted kw1
  · exact sortPairs_sorted kw2

/-! ### Claim theorems -/

/-- C1: for a computation with no captured variables and no global-scope
references, calling the wrapped form twice on a fresh cache root with the
same argument key executes the body exactly once in the first call and
never in the second; the second call returns the stored result through
the serialization strategy's round trip, equal to the first result. -/
theorem C1_repeat_call_runs_body_once (cfg : Config R E B D) (now1 now2 : D) (r : R)
    (hfv : cfg.freevars = [])
    (hgi : ∀ i ∈ cfg.instrs, isGlobalInstr i = false)
    (hext : ¬ (str "_source.py") <:+ cfg.ext)
    (hbody : cfg.body = .ok r)
    (hparse : cfg.parse (cfg.fmt now1) = some now1)
    (hrt : cfg.decode (cfg.encode r) = r) :
    (runWrapper cfg now1 none).result = .ok r ∧
    (runWrapper cfg now1 none).execCount = 1 ∧
    (runWrapper cfg now2 (runWrapper cfg now1 none).root).execCount = 0 ∧
    (runWrapper cfg now2 (runWrapper cfg now1 none).root).result =
      .ok (cfg.decode (cfg.encode r)) ∧
    (runWrapper cfg now2 (runWrapper cfg now1 none).root).result =
      (runWrapper cfg now1 none).result := by
  have hv : (validifyFunction cfg.freevars cfg.instrs).1 = true := by
    rw [validifyFunction_ok _ _ hfv hgi]
  have h1 := runWrapper_fresh cfg now1 r hfv hgi hext hbody
  have h2 := runWrapper_hit cfg now2
    (dirName (validifyFilename cfg.qualname) (cfg.fmt now1) cfg.funcHash)
    (cfg.fmt now1) now1 cfg.auditContent (cfg.encode r) hv
    (matchesDir_dirName _ _ _) hext hparse
  rw [h1]
  dsimp only
  rw [h2]
  exact ⟨rfl, rfl, rfl, rfl, by dsimp only; rw [hrt]⟩

theorem C1_repeat_call_runs_body_once_witness :
    (witCfg1.freevars = [] ∧ (∀ i ∈ witCfg1.instrs, isGlobalInstr i = false) ∧
     ¬ (str "_source.py") <:+ witCfg1.ext ∧ witCfg1.body = .ok 5 ∧
     witCfg1.parse (witCfg1.fmt ()) = some () ∧ witCfg1.decode (witCfg1.encode 5) = 5) ∧
    ((runWrapper witCfg1 () none).result = .ok 5 ∧
     (runWrapper witCfg1 () none).execCount = 1 ∧
     (runWrapper witCfg1 () (runWrapper witCfg1 () none).root).execCount = 0 ∧
     (runWrapper witCfg1 () (runWrapper witCfg1 () none).root).result =
       .ok (witCfg1.decode (witCfg1.encode 5)) ∧
     (runWrapper witCfg1 () (runWrapper witCfg1 () none).root).result =
       (runWrapper witCfg1 () none).result) :=
  ⟨⟨rfl, fun i hi => absurd hi (List.not_mem_nil i), by decide, rfl, rfl, rfl⟩,
   C1_repeat_call_runs_body_once witCfg1 () () 5 rfl
     (fun i hi => absurd hi (List.not_mem_nil i)) (by decide) rfl rfl rfl⟩

/-- C3: the `.incomplete` temporary filename never satisfies the lookup
loop's match test; consequently the state a crash leaves between the
temporary write and the rename — only the audit file and the orphaned
temporary — holds zero valid entries for the key and makes lookup miss,
and a subsequent call recomputes and publishes exactly one valid entry
under the final name. -/
theorem C3_crash_window_leaves_no_valid_entry (cfg : Config R E B D)
    (now1 now2 : D) (r : R)
    (hfv : cfg.freevars = [])
    (hgi : ∀ i ∈ cfg.instrs, isGlobalInstr i = false)
    (hext : ¬ (str "_source.py") <:+ cfg.ext)
    (hbody : cfg.body = .ok r) :
    (∀ ar ds ah e, matchesEntry ah e (tmpEntryName ar ds ah e) = false) ∧
    (runWrapper cfg now1 none).midRoot =
      some [(dirName (validifyFilename cfg.qualname) (cfg.fmt now1) cfg.funcHash,
        [(auditFileName (validifyFilename cfg.qualname), cfg.auditContent),
         (tmpEntryName cfg.argRepr (cfg.fmt now1) cfg.argHash cfg.ext, cfg.encode r)])] ∧
    validEntryCount cfg.argHash cfg.ext
      [(auditFileName (validifyFilename cfg.qualname), cfg.auditContent),
       (tmpEntryName cfg.argRepr (cfg.fmt now1) cfg.argHash cfg.ext, cfg.encode r)] = 0 ∧
    processLookup cfg
      [(auditFileName (validifyFilename cfg.qualname), cfg.auditContent),
       (tmpEntryName cfg.argRepr (cfg.fmt now1) cfg.argHash cfg.ext, cfg.encode r)] = none ∧
    (runWrapper cfg now2 (runWrapper cfg now1 none).midRoot).execCount = 1 ∧
    (runWrapper cfg now2 (runWrapper cfg now1 none).midRoot).result = .ok r ∧
    ∃ fsf, (runWrapper cfg now2 (runWrapper cfg now1 none).midRoot).root =
        some [(dirName (validifyFilename cfg.qualname) (cfg.fmt now1) cfg.funcHash, fsf)] ∧
      validEntryCount cfg.argHash cfg.ext fsf = 1 ∧
      (entryName cfg.argRepr (cfg.fmt now2) cfg.argHash cfg.ext, cfg.encode r) ∈ fsf := by
  have hv : (validifyFunction cfg.freevars cfg.instrs).1 = true := by
    rw [validifyFunction_ok _ _ hfv hgi]
  have h1 := runWrapper_fresh cfg now1 r hfv hgi hext hbody
  have hz : validEntryCount cfg.argHash cfg.ext
      [(auditFileName (validifyFilename cfg.qualname), cfg.auditContent),
       (tmpEntryName cfg.argRepr (cfg.fmt now1) cfg.argHash cfg.ext, cfg.encode r)] = 0 := by
    simp [validEntryCount, audit_not_matchesEntry _ _ _ hext, tmp_never_matches]
  have hmiss : processLookup cfg
      [(auditFileName (validifyFilename cfg.qualname), cfg.auditContent),
       (tmpEntryName cfg.argRepr (cfg.fmt now1) cfg.argHash cfg.ext, cfg.encode r)] = none := by
    rw [processLookup_cons_neg _ _ _ (audit_not_matchesEntry _ _ _ hext),
      processLookup_cons_neg _ _ _ (tmp_never_matches _ _ _ _)]
    rfl
  have h2 := runWrapper_miss_publish cfg now2
    (dirName (validifyFilename cfg.qualname) (cfg.fmt now1) cfg.funcHash)
    [(auditFileName (validifyFilename cfg.qualname), cfg.auditContent),
     (tmpEntryName cfg.argRepr (cfg.fmt now1) cfg.argHash cfg.ext, cfg.encode r)]
    r hv (matchesDir_dirName _ _ _) hmiss hbody
  rw [h1]
  dsimp only
  rw [h2]
  refine ⟨tmp_never_matches, rfl, hz, hmiss, rfl, rfl, _, rfl, ?_, ?_⟩
  · exact validEntryCount_publish _ _ _ _ _ _ _ hz (entryName_matches _ _ _ _)
  · exact mem_publish _ _ _ _ _

theorem C3_crash_window_leaves_no_valid_entry_witness :
    (witCfg1.freevars = [] ∧ (∀ i ∈ witCfg1.instrs, isGlobalInstr i = false) ∧
     ¬ (str "_source.py") <:+ witCfg1.ext ∧ witCfg1.body = .ok 5) ∧
    ((∀ ar ds ah e, matchesEntry ah e (tmpEntryName ar ds ah e) = false) ∧
     (runWrapper witCfg1 () none).midRoot =
       some [(dirName (validifyFilename witCfg1.qualname) (witCfg1.fmt ()) witCfg1.funcHash,
         [(auditFileName (validifyFilename witCfg1.qualname), witCfg1.auditContent),
          (tmpEntryName witCfg1.argRepr (witCfg1.fmt ()) witCfg1.argHash witCfg1.ext,
            witCfg1.encode 5)])] ∧
     validEntryCount witCfg1.argHash witCfg1.ext
       [(auditFileName (validifyFilename witCfg1.qualname), witCfg1.auditContent),
        (tmpEntryName witCfg1.argRepr (witCfg1.fmt ()) witCfg1.argHash witCfg1.ext,
          witCfg1.encode 5)] = 0 ∧
     processLookup witCfg1
       [(auditFileName (validifyFilename witCfg1.qualname), witCfg1.auditContent),
        (tmpEntryName witCfg1.argRepr (witCfg1.fmt ()) witCfg1.argHash witCfg1.ext,
          witCfg1.encode 5)] = none ∧
     (runWrapper witCfg1 () (runWrapper witCfg1 () none).midRoot).execCount = 1 ∧
     (runWrapper witCfg1 () (runWrapper witCfg1 () none).midRoot).result = .ok 5 ∧
     ∃ fsf, (runWrapper witCfg1 () (runWrapper witCfg1 () none).midRoot).root =
         some [(dirName (validifyFilename witCfg1.qualname) (witCfg1.fmt ())
           witCfg1.funcHash, fsf)] ∧
       validEntryCount witCfg1.argHash witCfg1.ext fsf = 1 ∧
       (entryName witCfg1.argRepr (witCfg1.fmt ()) witCfg1.argHash witCfg1.ext,
         witCfg1.encode 5) ∈ fsf) :=
  ⟨⟨rfl, fun i hi => absurd hi (List.not_mem_nil i), by decide, rfl⟩,
   C3_crash_window_leaves_no_valid_entry witCfg1 () () 5 rfl
     (fun i hi => absurd hi (List.not_mem_nil i)) (by decide) rfl⟩

/-- C8: when lookup misses and the wrapped computation raises, the
exception propagates unmodified as the call's result, and the cache
directory is left byte-for-byte unchanged — no final entry and no
temporary file is created (the temporary is only ever written after the
computation succeeds). -/
theorem C8_body_exception_creates_no_entry (cfg : Config R E B D) (now : D)
    (dn : Str) (fs : Listing B) (e : E)
    (hv : (validifyFunction cfg.freevars cfg.instrs).1 = true)
    (hdir : matchesDir (validifyFilename cfg.qualname) cfg.funcHash dn = true)
    (hmiss : processLookup cfg fs = none)
    (hbody : cfg.body = .error e) :
    runWrapper cfg now (some [(dn, fs)]) =
      ⟨.error (.userError e), some [(dn, fs)], 1, none⟩ := by
  rw [runWrapper_found cfg now _ (dn, fs) hv
    (@List.find?_cons_of_pos (Str × Listing B)
      (fun d => matchesDir (validifyFilename cfg.qualname) cfg.funcHash d.1) _ [] hdir)]
  exact runInDir_miss_raise _ _ _ _ _ _ hmiss hbody

theorem C8_body_exception_creates_no_entry_witness :
    ((validifyFunction witCfgErr.freevars witCfgErr.instrs).1 = true ∧
     matchesDir (validifyFilename witCfgErr.qualname) witCfgErr.funcHash
       (str "f_[d]_F_pycheckpoint") = true ∧
     processLookup witCfgErr ([] : Listing Nat) = none ∧
     witCfgErr.body = .error ()) ∧
    runWrapper witCfgErr () (some [(str "f_[d]_F_pycheckpoint", [])]) =
      ⟨.error (.userError ()), some [(str "f_[d]_F_pycheckpoint", [])], 1, none⟩ :=
  ⟨⟨rfl, by decide, rfl, rfl⟩,
   C8_body_exception_creates_no_entry witCfgErr () (str "f_[d]_F_pycheckpoint") [] ()
     rfl (by decide) rfl rfl⟩

/-- C10: when validation rejects the computation (free variables or a
global-memory opcode), the call raises before any filesystem operation:
the cache root is not created, no directory or file is written, and the
computation never runs. -/
theorem C10_rejection_precedes_fs_ops (cfg : Config R E B D) (now : D) (root0 : Root B)
    (h : (validifyFunction cfg.freevars cfg.instrs).1 = false) :
    (runWrapper cfg now root0).root = root0 ∧
    (runWrapper cfg now root0).execCount = 0 ∧
    (runWrapper cfg now root0).midRoot = none ∧
    (runWrapper cfg now root0).result = .error (.valueError
      (str "Function cannot be checkpointed: " ++
        (validifyFunction cfg.freevars cfg.instrs).2)) := by
  rw [runWrapper_invalid cfg now root0 h]
  exact ⟨rfl, rfl, rfl, rfl⟩

theorem C10_rejection_precedes_fs_ops_witness :
    ((validifyFunction witCfgFv.freevars witCfgFv.instrs).1 = false) ∧
    ((runWrapper witCfgFv () none).root = none ∧
     (runWrapper witCfgFv () none).execCount = 0 ∧
     (runWrapper witCfgFv () none).midRoot = none ∧
     (runWrapper witCfgFv () none).result = .error (.valueError
       (str "Function cannot be checkpointed: " ++
         (validifyFunction witCfgFv.freevars witCfgFv.instrs).2))) :=
  ⟨rfl, C10_rejection_precedes_fs_ops witCfgFv () none rfl⟩

/-- C5: a computation that captures a variable from an enclosing scope,
or whose instruction stream contains a global/module-scope load, store
or delete opcode, is rejected before it ever executes; in the
global-access case the raised message names the offending opcode. -/
theorem C5_rejects_closures_and_global_access (cfg : Config R E B D) (now : D)
    (root0 : Root B) :
    (cfg.freevars ≠ [] →
      (runWrapper cfg now root0).execCount = 0 ∧
      (runWrapper cfg now root0).result = .error (.valueError
        (str "Function cannot be checkpointed: " ++ str "Function has free variables"))) ∧
    (∀ i, cfg.freevars = [] → cfg.instrs.find? isGlobalInstr = some i →
      (runWrapper cfg now root0).execCount = 0 ∧
      (runWrapper cfg now root0).result = .error (.valueError
        (str "Function cannot be checkpointed: " ++
          (str "Function may use global memory: " ++ i.opname ++ str ". " ++ i.text))) ∧
      ∃ u v, str "Function cannot be checkpointed: " ++
          (str "Function may use global memory: " ++ i.opname ++ str ". " ++ i.text) =
        u ++ (i.opname ++ v)) := by
  constructor
  · intro hne
    have hval := validifyFunction_freevars cfg.freevars cfg.instrs hne
    have hfalse : (validifyFunction cfg.freevars cfg.instrs).1 = false := by rw [hval]
    rw [runWrapper_invalid cfg now root0 hfalse]
    refine ⟨rfl, ?_⟩
    dsimp only
    rw [hval]
  · intro i hfv hfind
    have hval := validifyFunction_global cfg.freevars cfg.instrs i hfv hfind
    have hfalse : (validifyFunction cfg.freevars cfg.instrs).1 = false := by rw [hval]
    rw [runWrapper_invalid cfg now root0 hfalse]
    refine ⟨rfl, ?_, ?_⟩
    · dsimp only
      rw [hval]
    · refine ⟨str "Function cannot be checkpointed: " ++
        str "Function may use global memory: ", str ". " ++ i.text, ?_⟩
      simp [List.append_assoc]

theorem C5_rejects_closures_and_global_access_witness :
    (witCfgFv.freevars ≠ [] ∧
     ((runWrapper witCfgFv () none).execCount = 0 ∧
      (runWrapper witCfgFv () none).result = .error (.valueError
        (str "Function cannot be checkpointed: " ++ str "Function has free variables")))) ∧
    (witCfgGl.freevars = [] ∧
     witCfgGl.instrs.find? isGlobalInstr = some ⟨str "LOAD_GLOBAL", str "instrtext"⟩ ∧
     ((runWrapper witCfgGl () none).execCount = 0 ∧
      (runWrapper witCfgGl () none).result = .error (.valueError
        (str "Function cannot be checkpointed: " ++
          (str "Function may use global memory: " ++ str "LOAD_GLOBAL" ++
            str ". " ++ str "instrtext"))) ∧
      ∃ u v, str "Function cannot be checkpointed: " ++
          (str "Function may use global memory: " ++ str "LOAD_GLOBAL" ++
            str ". " ++ str "instrtext") =
        u ++ (str "LOAD_GLOBAL" ++ v))) :=
  ⟨⟨by decide,
    (C5_rejects_closures_and_global_access witCfgFv () none).1 (by decide)⟩,
   ⟨rfl, by decide,
    (C5_rejects_closures_and_global_access witCfgGl () none).2
      ⟨str "LOAD_GLOBAL", str "instrtext"⟩ rfl (by decide)⟩⟩

/-- C7: when the entry the lookup loop matches has a date segment that
lacks its bracket delimiters or fails to parse, the call surfaces a
fatal error (the assertion failure, resp. the raised `ValueError`)
instead of returning a value or falling through to recompute. -/
theorem C7_malformed_date_is_fatal (cfg : Config R E B D) (now : D) (dn : Str)
    (fs : Listing B) (f : Str × B)
    (hv : (validifyFunction cfg.freevars cfg.instrs).1 = true)
    (hdir : matchesDir (validifyFilename cfg.qualname) cfg.funcHash dn = true)
    (hfind : findEntry cfg.argHash cfg.ext fs = some f)
    (hbad : (((dateSlice cfg.argRepr cfg.argHash cfg.ext f.1).head? == some '[') &&
        ((dateSlice cfg.argRepr cfg.argHash cfg.ext f.1).getLast? == some ']')) = false ∨
      cfg.parse (pySlice (dateSlice cfg.argRepr cfg.argHash cfg.ext f.1) 1 1) = none) :
    (runWrapper cfg now (some [(dn, fs)])).execCount = 0 ∧
    ∃ m, (runWrapper cfg now (some [(dn, fs)])).result = .error (.assertionError m) ∨
      (runWrapper cfg now (some [(dn, fs)])).result = .error (.valueError m) := by
  have hlk : processLookup cfg fs = some (processHit cfg f.1 f.2) := by
    unfold processLookup
    rw [hfind]
    rfl
  rw [runWrapper_found cfg now _ (dn, fs) hv
    (@List.find?_cons_of_pos (Str × Listing B)
      (fun d => matchesDir (validifyFilename cfg.qualname) cfg.funcHash d.1) _ [] hdir)]
  rw [runInDir_hit _ _ _ _ _ _ hlk]
  refine ⟨rfl, ?_⟩
  dsimp only
  unfold processHit
  rcases hbad with hb | hp
  · rw [if_neg (by rw [hb]; exact Bool.false_ne_true)]
    exact ⟨_, Or.inl rfl⟩
  · by_cases hc : (((dateSlice cfg.argRepr cfg.argHash cfg.ext f.1).head? == some '[') &&
        ((dateSlice cfg.argRepr cfg.argHash cfg.ext f.1).getLast? == some ']')) = true
    · rw [if_pos hc, hp]
      exact ⟨_, Or.inr rfl⟩
    · rw [if_neg hc]
      exact ⟨_, Or.inl rfl⟩

theorem C7_malformed_date_is_fatal_witness :
    ((validifyFunction witCfg1.freevars witCfg1.instrs).1 = true ∧
     matchesDir (validifyFilename witCfg1.qualname) witCfg1.funcHash
       (str "f_[d]_F_pycheckpoint") = true ∧
     findEntry witCfg1.argHash witCfg1.ext [(str "zz_h_pycheckpoint.pkl", 3)] =
       some (str "zz_h_pycheckpoint.pkl", 3) ∧
     (((dateSlice witCfg1.argRepr witCfg1.argHash witCfg1.ext
         (str "zz_h_pycheckpoint.pkl")).head? == some '[') &&
       ((dateSlice witCfg1.argRepr witCfg1.argHash witCfg1.ext
         (str "zz_h_pycheckpoint.pkl")).getLast? == some ']')) = false) ∧
    ((runWrapper witCfg1 ()
        (some [(str "f_[d]_F_pycheckpoint", [(str "zz_h_pycheckpoint.pkl", 3)])])).execCount
      = 0 ∧
     ∃ m, (runWrapper witCfg1 ()
         (some [(str "f_[d]_F_pycheckpoint",
           [(str "zz_h_pycheckpoint.pkl", 3)])])).result = .error (.assertionError m) ∨
       (runWrapper witCfg1 ()
         (some [(str "f_[d]_F_pycheckpoint",
           [(str "zz_h_pycheckpoint.pkl", 3)])])).result = .error (.valueError m)) :=
  ⟨⟨rfl, by decide, by decide, by decide⟩,
   C7_malformed_date_is_fatal witCfg1 () (str "f_[d]_F_pycheckpoint")
     [(str "zz_h_pycheckpoint.pkl", 3)] (str "zz_h_pycheckpoint.pkl", 3)
     rfl (by decide) (by decide) (Or.inl (by decide))⟩

/-- C2 (amended): the lookup loop selects a directory entry by its
suffix alone — a file is a hit candidate exactly when its name ends with
`"_" + argHash + "_pycheckpoint." + ext`; the computed prefix is not
tested (it only fixes where the date slice starts). -/
theorem C2_lookup_tests_suffix_only (cfg : Config R E B D) (fs : Listing B) :
    ((processLookup cfg fs).isSome ↔
      ∃ f ∈ fs, matchesEntry cfg.argHash cfg.ext f.1 = true) ∧
    ∀ f, findEntry cfg.argHash cfg.ext fs = some f →
      matchesEntry cfg.argHash cfg.ext f.1 = true := by
  constructor
  · unfold processLookup findEntry
    rw [Option.isSome_map']
    exact List.find?_isSome
  · intro f hf
    unfold findEntry at hf
    exact @List.find?_some _ (fun g => matchesEntry cfg.argHash cfg.ext g.1) f fs hf

theorem C2_lookup_tests_suffix_only_witness :
    findEntry cexCfg.argHash cexCfg.ext [(str "b_[x]_h_pycheckpoint.pkl", 7)] =
      some (str "b_[x]_h_pycheckpoint.pkl", 7) ∧
    matchesEntry cexCfg.argHash cexCfg.ext (str "b_[x]_h_pycheckpoint.pkl") = true :=
  ⟨by decide,
   (C2_lookup_tests_suffix_only cexCfg [(str "b_[x]_h_pycheckpoint.pkl", 7)]).2
     (str "b_[x]_h_pycheckpoint.pkl", 7) (by decide)⟩

/-- C2 (counterexample to the claim as stated): a file whose suffix
matches but whose prefix differs from the argument representation's
prefix `"a_"` is nevertheless returned as a cache hit (payload `7`,
computation not executed). -/
theorem C2_prefix_violating_hit_counterexample :
    (runWrapper cexCfg 0 (some [(str "f_[x]_F_pycheckpoint",
        [(str "b_[x]_h_pycheckpoint.pkl", 7)])])).result = .ok 7 ∧
    (runWrapper cexCfg 0 (some [(str "f_[x]_F_pycheckpoint",
        [(str "b_[x]_h_pycheckpoint.pkl", 7)])])).execCount = 0 ∧
    (str "a_").isPrefixOf (str "b_[x]_h_pycheckpoint.pkl") = false ∧
    matchesEntry cexCfg.argHash cexCfg.ext (str "b_[x]_h_pycheckpoint.pkl") = true :=
  ⟨rfl, rfl, rfl, rfl⟩

/-- C4: the logic fingerprint is the hash of a serialization of exactly
the triple (constant pool, name pool, raw instruction bytes); two code
objects agreeing on the triple (regardless of local variable names, and
comments never reach a code object) get equal fingerprints, and two code
objects differing in a constant or a referenced name feed different
inputs to the hash. -/
theorem C4_fingerprint_depends_only_on_triple (V π : Type) (sha : π → Str)
    (pickleT : List V × List Str × List Nat → π) (c1 c2 : CodeObject V) :
    fingerprintFunction sha pickleT c1 = sha (pickleT (fingerprintInput c1)) ∧
    (c1.co_consts = c2.co_consts → c1.co_names = c2.co_names →
      c1.co_code = c2.co_code →
      fingerprintFunction sha pickleT c1 = fingerprintFunction sha pickleT c2) ∧
    ((c1.co_consts ≠ c2.co_consts ∨ c1.co_names ≠ c2.co_names) →
      fingerprintInput c1 ≠ fingerprintInput c2) := by
  refine ⟨rfl, ?_, ?_⟩
  · intro h1 h2 h3
    unfold fingerprintFunction fingerprintInput
    rw [h1, h2, h3]
  · intro h heq
    have h1 : c1.co_consts = c2.co_consts := congrArg Prod.fst heq
    have h2 : c1.co_names = c2.co_names := congrArg (fun p => p.2.1) heq
    rcases h with h | h
    · exact h h1
    · exact h h2

theorem C4_fingerprint_depends_only_on_triple_witness :
    fingerprintFunction (fun _ => str "s") (fun _ => ())
        (⟨[1], [str "n"], [7], [str "local1"]⟩ : CodeObject Nat) =
      fingerprintFunction (fun _ => str "s") (fun _ => ())
        (⟨[1], [str "n"], [7], [str "local2"]⟩ : CodeObject Nat) ∧
    fingerprintInput (⟨[1], [str "n"], [7], [str "local1"]⟩ : CodeObject Nat) ≠
      fingerprintInput (⟨[2], [str "n"], [7], [str "local1"]⟩ : CodeObject Nat) :=
  ⟨(C4_fingerprint_depends_only_on_triple Nat Unit (fun _ => str "s") (fun _ => ())
      ⟨[1], [str "n"], [7], [str "local1"]⟩ ⟨[1], [str "n"], [7], [str "local2"]⟩).2.1
    rfl rfl rfl,
   (C4_fingerprint_depends_only_on_triple Nat Unit (fun _ => str "s") (fun _ => ())
      ⟨[1], [str "n"], [7], [str "local1"]⟩ ⟨[2], [str "n"], [7], [str "local1"]⟩).2.2
    (Or.inl (by decide))⟩

/-- C6 (amended): the positional-mode representation joins the keyword
pairs in the order the dictionary holds them (call order), so reordering
keywords can change the representation; the hash input, by contrast, is
the pair (positional tuple, keyword pairs sorted by key) and is
invariant under keyword reordering. -/
theorem C6_positional_key_construction (V : Type) (strV reprV : V → Str)
    (pos : List V) (kw1 kw2 : List (Str × V)) (hperm : List.Perm kw1 kw2)
    (hnd : (kw1.map Prod.fst).Nodup) :
    positionalRepr strV reprV pos kw1 =
      validifyFilename ((joinComma (pos.map strV)).take 80 ++
        '_' :: (joinComma (kw1.map (fun kv => kv.1 ++ '-' :: reprV kv.2))).take 80) ∧
    positionalHashInput pos kw1 = positionalHashInput pos kw2 := by
  constructor
  · rfl
  · unfold positionalHashInput
    rw [sortPairs_perm_invariant kw1 kw2 hperm hnd]

theorem C6_positional_key_construction_witness :
    (List.Perm [(str "x", str "1"), (str "y", str "2")]
       [(str "y", str "2"), (str "x", str "1")] ∧
     (([(str "x", str "1"), (str "y", str "2")].map Prod.fst).Nodup)) ∧
    positionalHashInput ([] : List Str) [(str "x", str "1"), (str "y", str "2")] =
      positionalHashInput [] [(str "y", str "2"), (str "x", str "1")] :=
  ⟨⟨List.Perm.swap (str "y", str "2") (str "x", str "1") [], by decide⟩,
   (C6_positional_key_construction Str (fun v => v) (fun v => v) []
      [(str "x", str "1"), (str "y", str "2")]
      [(str "y", str "2"), (str "x", str "1")]
      (List.Perm.swap (str "y", str "2") (str "x", str "1") []) (by decide)).2⟩

/-- C6 (counterexample to the claim as stated): the same keyword
arguments given in two different orders yield different representations
(the pairs are joined in dictionary order, not sorted), though the hash
inputs agree. -/
theorem C6_kwarg_order_changes_repr_counterexample :
    positionalRepr (fun v : Str => v) (fun v => v) []
        [(str "x", str "1"), (str "y", str "2")] ≠
      positionalRepr (fun v : Str => v) (fun v => v) []
        [(str "y", str "2"), (str "x", str "1")] ∧
    positionalHashInput ([] : List Str) [(str "x", str "1"), (str "y", str "2")] =
      positionalHashInput ([] : List Str) [(str "y", str "2"), (str "x", str "1")] := by
  constructor
  · decide
  · decide

/-- C9: `bind` does not fill declared defaults into the bound mapping,
so for a function `f(na, nb=d0)` the call `f(x)` binds to `[(na, x)]`
while `f(x, nb=d0)` binds to `[(na, x), (nb, d0)]`: different mappings,
hence a different representation (when the first is not truncated) and a
different input to every injective hash, and — for equal-length distinct
hash strings — no file can be a valid entry for both keys. -/
theorem C9_defaults_not_bound (V Hsh : Type) (na nb : Str) (x d0 : V)
    (reprV : V → Str) (hne : na ≠ nb)
    (hlen : (na ++ '=' :: reprV x).length < 160) :
    bindArgs [⟨na, none⟩, ⟨nb, some d0⟩] [x] [] = some [(na, x)] ∧
    bindArgs [⟨na, none⟩, ⟨nb, some d0⟩] [x] [(nb, d0)] = some [(na, x), (nb, d0)] ∧
    ([(na, x)] : List (Str × V)) ≠ [(na, x), (nb, d0)] ∧
    (∀ H : List (Str × V) → Hsh, Function.Injective H →
      H [(na, x)] ≠ H [(na, x), (nb, d0)]) ∧
    canonicalRepr reprV [(na, x)] ≠ canonicalRepr reprV [(na, x), (nb, d0)] ∧
    (∀ h1 h2 e f : Str, h1.length = h2.length → h1 ≠ h2 →
      ¬(matchesEntry h1 e f = true ∧ matchesEntry h2 e f = true)) := by
  have hbeq : (na == nb) = false := beq_eq_false_iff_ne.mpr hne
  have h3 : ([(na, x)] : List (Str × V)) ≠ [(na, x), (nb, d0)] := by simp
  refine ⟨?_, ?_, h3, fun H hinj heq => h3 (hinj heq), ?_, ?_⟩
  · simp [bindArgs]
  · simp [bindArgs, List.lookup, removeKey, hbeq]
  · have key1 : canonicalRepr reprV [(na, x)] =
        validifyFilename (na ++ '=' :: reprV x) := by
      unfold canonicalRepr
      have hj : joinComma ([(na, x)].map (fun kv => kv.1 ++ '=' :: reprV kv.2)) =
          na ++ '=' :: reprV x := rfl
      rw [hj, List.take_of_length_le (le_of_lt hlen)]
    have key2 : canonicalRepr reprV [(na, x), (nb, d0)] =
        validifyFilename (na ++ '=' :: reprV x) ++ ',' ::
          validifyFilename (List.take (160 - (na ++ '=' :: reprV x).length - 1)
            (nb ++ '=' :: reprV d0)) := by
      unfold canonicalRepr
      have hj : joinComma ([(na, x), (nb, d0)].map (fun kv => kv.1 ++ '=' :: reprV kv.2)) =
          (na ++ '=' :: reprV x) ++ ',' :: (nb ++ '=' :: reprV d0) := rfl
      rw [hj, List.take_append_eq_append_take, List.take_of_length_le (le_of_lt hlen)]
      obtain ⟨k, hk⟩ : ∃ k, 160 - (na ++ '=' :: reprV x).length = k + 1 :=
        ⟨160 - (na ++ '=' :: reprV x).length - 1, by omega⟩
      have hk2 : 160 - (na ++ '=' :: reprV x).length - 1 = k := by omega
      rw [hk2, hk, List.take_succ_cons]
      unfold validifyFilename
      rw [List.filter_append, List.filter_cons_of_pos (by decide)]
    intro heq
    rw [key1, key2] at heq
    have hlen2 := congrArg List.length heq
    simp only [List.length_append, List.length_cons] at hlen2
    omega
  · intro h1 h2 e f hl hne2 hc
    obtain ⟨ha, hb⟩ := hc
    unfold matchesEntry at ha hb
    have s1 : lookupSuffix h1 e <:+ f := isSufIff.mp ha
    have s2 : lookupSuffix h2 e <:+ f := isSufIff.mp hb
    have heq : lookupSuffix h1 e = lookupSuffix h2 e := by
      rcases List.suffix_or_suffix_of_suffix s1 s2 with h | h
      · exact h.eq_of_length (by simp [hl])
      · exact (h.eq_of_length (by simp [hl])).symm
    apply hne2
    have htail : h1 ++ (str "_pycheckpoint." ++ e) = h2 ++ (str "_pycheckpoint." ++ e) := by
      have hcons : ('_' :: (h1 ++ (str "_pycheckpoint." ++ e))) =
          ('_' :: (h2 ++ (str "_pycheckpoint." ++ e))) := heq
      injection hcons
    exact List.append_cancel_right htail

theorem C9_defaults_not_bound_witness :
    ((str "a" : Str) ≠ str "b" ∧
     ((str "a" : Str) ++ '=' :: str "1").length < 160) ∧
    (bindArgs [⟨str "a", none⟩, ⟨str "b", some (str "2")⟩] [str "1"] [] =
       some [(str "a", str "1")] ∧
     bindArgs [⟨str "a", none⟩, ⟨str "b", some (str "2")⟩] [str "1"]
        [(str "b", str "2")] =
       some [(str "a", str "1"), (str "b", str "2")] ∧
     ([(str "a", str "1")] : List (Str × Str)) ≠
       [(str "a", str "1"), (str "b", str "2")] ∧
     (∀ H : List (Str × Str) → List (Str × Str), Function.Injective H →
       H [(str "a", str "1")] ≠ H [(str "a", str "1"), (str "b", str "2")]) ∧
     canonicalRepr (fun v => v) [(str "a", str "1")] ≠
       canonicalRepr (fun v => v) [(str "a", str "1"), (str "b", str "2")] ∧
     (∀ h1 h2 e f : Str, h1.length = h2.length → h1 ≠ h2 →
       ¬(matchesEntry h1 e f = true ∧ matchesEntry h2 e f = true))) :=
  ⟨⟨by decide, by decide⟩,
   C9_defaults_not_bound Str (List (Str × Str)) (str "a") (str "b")
     (str "1") (str "2") (fun v => v) (by decide) (by decide)⟩

end Pycheckpoint
